import Mathlib

/-!
Verification of the dmosh-export-service job manager (`src/jobs.js`,
`src/exportsRoutes.js`) against its natural-language specification.

The JavaScript code is shallowly embedded: JS numbers are modelled by
`JSNum` (finite rationals, the two infinities and NaN), optional / possibly
absent object fields by `Option`, the filesystem by an explicit read-only
model, and the mutable job lifecycle by pure step functions together with a
`Reachable` predicate.  Every definition is translated from the source file
it names in its doc comment.
-/

/-- A JavaScript number: NaN, +Infinity (`inf true`), -Infinity
(`inf false`), or a finite value modelled as a rational. -/
inductive JSNum where
  | nan : JSNum
  | inf : Bool → JSNum
  | fin : ℚ → JSNum
deriving DecidableEq, Repr

namespace JSNum

/-- JS negation `-x`. -/
def jneg : JSNum → JSNum
  | nan => nan
  | inf p => inf (!p)
  | fin q => fin (-q)

/-- JS addition `x + y` (numeric operands). -/
def jadd : JSNum → JSNum → JSNum
  | nan, _ => nan
  | _, nan => nan
  | inf a, inf b => if a = b then inf a else nan
  | inf a, fin _ => inf a
  | fin _, inf b => inf b
  | fin a, fin b => fin (a + b)

/-- JS subtraction `x - y`. -/
def jsub (a b : JSNum) : JSNum := jadd a (jneg b)

/-- JS multiplication `x * y`. -/
def jmul : JSNum → JSNum → JSNum
  | nan, _ => nan
  | _, nan => nan
  | inf a, inf b => inf (a = b)
  | inf a, fin q => if q = 0 then nan else inf (a = decide (0 < q))
  | fin q, inf b => if q = 0 then nan else inf (b = decide (0 < q))
  | fin a, fin b => fin (a * b)

/-- JS division `x / y`. -/
def jdiv : JSNum → JSNum → JSNum
  | nan, _ => nan
  | _, nan => nan
  | inf _, inf _ => nan
  | inf a, fin q => inf (a = decide (0 ≤ q))
  | fin _, inf _ => fin 0
  | fin a, fin b =>
      if b = 0 then (if a = 0 then nan else inf (decide (0 < a))) else fin (a / b)

/-- JS strict comparison `x < y` (false whenever an operand is NaN). -/
def jltB : JSNum → JSNum → Bool
  | nan, _ => false
  | _, nan => false
  | inf a, inf b => !a && b
  | inf a, fin _ => !a
  | fin _, inf b => b
  | fin a, fin b => decide (a < b)

/-- JS comparison `x <= y` (false whenever an operand is NaN). -/
def jleB : JSNum → JSNum → Bool
  | nan, _ => false
  | _, nan => false
  | inf a, inf b => (a = b) || (!a && b)
  | inf a, fin _ => !a
  | fin _, inf b => b
  | fin a, fin b => decide (a ≤ b)

/-- JS `Math.max(x, y)`: NaN if either operand is NaN. -/
def jmax (a b : JSNum) : JSNum :=
  match a, b with
  | nan, _ => nan
  | _, nan => nan
  | x, y => if jltB x y then y else x

/-- JS `Math.min(x, y)`: NaN if either operand is NaN. -/
def jmin (a b : JSNum) : JSNum :=
  match a, b with
  | nan, _ => nan
  | _, nan => nan
  | x, y => if jltB y x then y else x

/-- JS `Math.round(x)`: round half toward positive infinity. -/
def jround : JSNum → JSNum
  | nan => nan
  | inf p => inf p
  | fin q => fin ((⌊q + 1 / 2⌋ : ℤ) : ℚ)

/-- JS truthiness of a number: `0` and `NaN` are falsy. -/
def jsTruthy : JSNum → Bool
  | nan => false
  | inf _ => true
  | fin q => decide (q ≠ 0)

/-- JS `Number.isFinite`. -/
def jsIsFinite : JSNum → Bool
  | fin _ => true
  | _ => false

/-- JS `Math.min(...xs)` over a spread list (identity `+Infinity`). -/
def jsMathMin (l : List JSNum) : JSNum := l.foldr jmin (inf true)

/-- JS `Math.max(...xs)` over a spread list (identity `-Infinity`). -/
def jsMathMax (l : List JSNum) : JSNum := l.foldr jmax (inf false)

theorem jmax_fin (x y : ℚ) : jmax (fin x) (fin y) = fin (max x y) := by
  unfold jmax jltB
  rcases lt_trichotomy x y with h | h | h <;>
    simp [h, max_eq_right h.le, max_eq_left h.le, le_of_lt, not_lt_of_lt, le_max_iff,
      max_eq_left, max_eq_right, le_refl, h.not_lt]

theorem jmin_fin (x y : ℚ) : jmin (fin x) (fin y) = fin (min x y) := by
  unfold jmin jltB
  rcases lt_trichotomy x y with h | h | h <;>
    simp [h, min_eq_left h.le, min_eq_right h.le, h.not_lt, min_eq_left, min_eq_right, le_refl]

theorem jadd_fin (x y : ℚ) : jadd (fin x) (fin y) = fin (x + y) := rfl

theorem jsub_fin (x y : ℚ) : jsub (fin x) (fin y) = fin (x - y) := by
  show fin (x + -y) = fin (x - y)
  rw [← sub_eq_add_neg]

theorem jmul_fin (x y : ℚ) : jmul (fin x) (fin y) = fin (x * y) := rfl

theorem jround_fin (q : ℚ) : jround (fin q) = fin ((⌊q + 1 / 2⌋ : ℤ) : ℚ) := rfl

theorem jdiv_fin (x y : ℚ) (hy : y ≠ 0) : jdiv (fin x) (fin y) = fin (x / y) := by
  simp [jdiv, hy]

end JSNum

open JSNum

/-- A JS number-or-absent field used in numeric position: `undefined`
coerces to NaN. -/
def jOf (o : Option JSNum) : JSNum := o.getD .nan

/-- The idiom `x || 0` on a possibly absent numeric field: falsy values
(absent, NaN, 0) become `0`. -/
def jOrZero (o : Option JSNum) : JSNum :=
  let v := jOf o
  if jsTruthy v then v else .fin 0

/-- JS truthiness of a possibly absent string (`undefined`, `null` and the
empty string are falsy). -/
def strTruthy (o : Option String) : Bool :=
  match o with
  | some s => s ≠ ""
  | none => false

/-- The idiom `x || d` on a possibly absent string field. -/
def strOr (o : Option String) (d : String) : String :=
  match o with
  | some s => if s = "" then d else s
  | none => d

/-! ## Data model (jobs.js, exportsRoutes.js request bodies) -/

/-- A project source entry (`project.sources[]`): id, content hash,
original upload name and stored duration in frames.  All fields may be
absent in the JS object. -/
structure SourceObj where
  id : Option String
  hash : Option String
  originalName : Option String
  durationFrames : Option JSNum
deriving DecidableEq, Repr

/-- A timeline clip (`project.timeline.clips[]`). -/
structure Clip where
  id : Option String
  sourceId : Option String
  startFrame : Option JSNum
  endFrame : Option JSNum
  timelineStartFrame : Option JSNum
deriving DecidableEq, Repr

/-- The `project.timeline` object. -/
structure Timeline where
  fps : Option JSNum
  clips : Option (List Clip)
deriving DecidableEq, Repr

/-- The `project.settings` object. -/
structure ProjSettings where
  width : Option JSNum
  height : Option JSNum
  fps : Option JSNum
deriving DecidableEq, Repr

/-- The externally supplied project object. -/
structure Project where
  settings : Option ProjSettings
  timeline : Option Timeline
  sources : Option (List SourceObj)
deriving DecidableEq, Repr

/-- The source selector `settings.source` (`kind` is a free string in JS;
the recognised kinds are "timeline", "clip" and "source"). -/
structure SourceSel where
  kind : String
  sourceId : Option String
  clipId : Option String
  inFrame : Option JSNum
  outFrame : Option JSNum
deriving DecidableEq, Repr

/-- The default selector used when `settings.source` is absent
(jobs.js line 125/151/229: `settings.source || { kind: 'timeline' }`). -/
def defaultSel : SourceSel :=
  { kind := "timeline", sourceId := none, clipId := none, inFrame := none, outFrame := none }

/-- Per-job export settings (the fields read by jobs.js). -/
structure Settings where
  source : Option SourceSel
  outputResolution : Option String
  width : Option JSNum
  height : Option JSNum
  renderResolutionScale : Option JSNum
  fpsMode : Option String
  fps : Option JSNum
  container : Option String
deriving DecidableEq, Repr

/-- Settings with every field absent (the `{}` default of
`settings || {}`). -/
def emptySettings : Settings :=
  { source := none, outputResolution := none, width := none, height := none,
    renderResolutionScale := none, fpsMode := none, fps := none, container := none }

/-- Derived render parameters (jobs.js `deriveRenderParams` result). -/
structure RenderParams where
  width : JSNum
  height : JSNum
  fps : JSNum
  durationSeconds : JSNum
deriving DecidableEq, Repr

/-- A job record (jobs.js `createJob`, lines 665-675).  `createdAt` holds
the `Date.parse` value (in milliseconds) of the stored ISO timestamp,
`none` when unparsable; the uuid is modelled as a supplied id and the
bounded `debug` ring buffer is omitted (no claim concerns it). -/
structure Job where
  id : String
  status : String
  progress : JSNum
  error : Option String
  container : String
  createdAt : Option ℚ
  clientVersion : Option String
  downloadPath : Option String
deriving DecidableEq, Repr

/-- Read-only filesystem model: `existsSync`, and `statSync(..).size`
where `none` models `statSync` throwing. -/
structure FSModel where
  existsSync : String → Bool
  statSize : String → Option ℚ

/-- jobs.js line 12: media root (modelled at its default
`path.join(os.tmpdir(), 'dmosh-media')`). -/
def MEDIA_ROOT : String := "/tmp/dmosh-media"

/-- jobs.js line 11: temp dir for outputs. -/
def TMP_DIR : String := "/tmp/dmosh-export-service"

/-- jobs.js lines 50-54: soft and extreme thresholds. -/
def SOFT_MAX_WIDTH : ℚ := 3840

def SOFT_MAX_HEIGHT : ℚ := 2160

def SOFT_MAX_DURATION_SECONDS : ℚ := 10 * 60

def EXTREME_MAX_DIMENSION : ℚ := 8192

def EXTREME_MAX_DURATION_SECONDS : ℚ := 60 * 60

/-- Node `path.join(root, rel)` for an absolute root and a relative component,
as used with `MEDIA_ROOT`. -/
def jsPathJoin (a b : String) : String := a ++ "/" ++ b

/-- Characters kept by the `safeBaseName` sanitiser
(jobs.js line 75: `[^a-zA-Z0-9_.-]` replaced by `_`). -/
def safeChar (c : Char) : Bool :=
  (('a' ≤ c && c ≤ 'z') || ('A' ≤ c && c ≤ 'Z') || ('0' ≤ c && c ≤ '9') ||
    c = '_' || c = '.' || c = '-')

/-- Node `path.basename` (POSIX): drop trailing slashes, then keep the part
after the last slash. -/
def jsBasename (s : String) : String :=
  let cs := (s.toList.reverse.dropWhile (· = '/')).reverse
  ((cs.reverse.takeWhile (· ≠ '/')).reverse).asString

/-- jobs.js lines 73-76: `safeBaseName` — `null` on a falsy name, else the
basename with disallowed characters replaced by `_`. -/
def safeBaseName (name : Option String) : Option String :=
  match name with
  | none => none
  | some s =>
      if s = "" then none
      else some (((jsBasename s).toList.map (fun c => if safeChar c then c else '_')).asString)

/-- jobs.js lines 78-99: `getMediaCandidatePaths` — the ordered probe
list: `<hash>.<container>` (when a container hint is given), then the
fixed fallbacks mp4/mov/mkv/webm, then the bare hash, then the sanitised
basename of the original name. -/
def getMediaCandidatePaths (hash : Option String) (originalName : Option String)
    (container : Option String) : List String :=
  let safeName := safeBaseName originalName
  let base := jsPathJoin MEDIA_ROOT (strOr hash "")
  let preferredExts :=
    (match container with
     | some c => if c = "" then [] else [c]
     | none => []) ++ ["mp4", "mov", "mkv", "webm"]
  (if strTruthy hash then preferredExts.map (fun ext => base ++ "." ++ ext) ++ [base] else [])
    ++ (match safeName with
        | some n => if n = "" then [] else [jsPathJoin MEDIA_ROOT n]
        | none => [])

/-- The per-candidate test of jobs.js line 114:
`fs.existsSync(candidate) && fs.statSync(candidate).size > 0`; a thrown
`statSync` (modelled by `none`) is caught and the candidate skipped. -/
def fileOk (fs : FSModel) (p : String) : Bool :=
  fs.existsSync p &&
    (match fs.statSize p with
     | some sz => decide (0 < sz)
     | none => false)

/-- jobs.js lines 101-122: `resolveMediaPathForSource` — first candidate
that exists with non-zero size, `null` otherwise (never throws: every
per-candidate exception is caught). -/
def resolveMediaPathForSource (fs : FSModel) (_project : Project)
    (sourceRef : Option SourceObj) (container : Option String) : Option String :=
  match sourceRef with
  | none => none
  | some src =>
      if !strTruthy src.hash && !strTruthy src.originalName then none
      else (getMediaCandidatePaths src.hash src.originalName container).find? (fileOk fs)

/-- Modelled from the spec: the candidate order stated in section 4.2 of
the specification (`<hash>.<preferredContainer>` first, then
`<hash>.mp4/mov/mkv/webm`, then the bare hash, then the sanitised
basename of the original filename), for comparison with
`getMediaCandidatePaths`. -/
def specCandidateOrder (hash : String) (originalName : Option String)
    (preferredContainer : String) : List String :=
  [jsPathJoin MEDIA_ROOT (hash ++ "." ++ preferredContainer)]
    ++ ["mp4", "mov", "mkv", "webm"].map (fun ext => jsPathJoin MEDIA_ROOT (hash ++ "." ++ ext))
    ++ [jsPathJoin MEDIA_ROOT hash]
    ++ (match safeBaseName originalName with
        | some n => if n = "" then [] else [jsPathJoin MEDIA_ROOT n]
        | none => [])

/-! ## Source resolution and timeline validation (jobs.js) -/

/-- The truthy source ids of a clip list: jobs.js lines 142/157,
`clips.map((c) => c.sourceId).filter(Boolean)`. -/
def truthySourceIds (clips : List Clip) : List String :=
  clips.filterMap (fun c =>
    match c.sourceId with
    | some s => if s = "" then none else some s
    | none => none)

/-- Distinct elements in first-insertion order, as a JS `Set` iterates. -/
def firstDedup : List String → List String
  | [] => []
  | x :: xs => x :: firstDedup (xs.filter (fun y => y ≠ x))
termination_by l => l.length
decreasing_by
  simp only [List.length_cons]
  exact Nat.lt_succ_of_le (List.length_filter_le _ _)

/-- jobs.js lines 124-148: `resolvePrimarySource` — direct id lookup for a
source-kind selector, clip-then-owner lookup for a clip-kind selector, and
for everything else the unique source shared by all timeline clips (or
`null`). -/
def resolvePrimarySource (project : Project) (settings : Settings) : Option SourceObj :=
  let sourceRef := settings.source.getD defaultSel
  let sources := project.sources.getD []
  let clips := (project.timeline.bind Timeline.clips).getD []
  if sourceRef.kind = "source" && strTruthy sourceRef.sourceId then
    sources.find? (fun s => s.id = sourceRef.sourceId)
  else if sourceRef.kind = "clip" && strTruthy sourceRef.clipId then
    match clips.find? (fun c => c.id = sourceRef.clipId) with
    | none => none
    | some clip => sources.find? (fun s => s.id = clip.sourceId)
  else if clips.length = 0 then none
  else
    let sourceIds := firstDedup (truthySourceIds clips)
    if sourceIds.length ≠ 1 then none
    else sources.find? (fun s => s.id = sourceIds.head?)

/-- The sort key of jobs.js line 162: `a.timelineStartFrame || 0`. -/
def clipKey (c : Clip) : JSNum := jOrZero c.timelineStartFrame

/-- The comparator `(a, b) => keyA - keyB` of jobs.js line 162, as the
"keep `a` before `b`" relation of a stable sort (comparator result
non-positive, or NaN which the engine treats as zero). -/
def jsCmpLe (a b : JSNum) : Bool :=
  match jsub a b with
  | .fin q => decide (q ≤ 0)
  | .inf p => !p
  | .nan => true

/-- Stable insertion of a clip that originally came before the already
sorted tail. -/
def stableInsert (c : Clip) : List Clip → List Clip
  | [] => [c]
  | x :: xs => if jsCmpLe (clipKey c) (clipKey x) then c :: x :: xs else x :: stableInsert c xs

/-- jobs.js line 162: `[...clips].sort((a, b) => (a.timelineStartFrame || 0)
 - (b.timelineStartFrame || 0))`, modelled as the stable sort by that
comparator. -/
def sortClips : List Clip → List Clip
  | [] => []
  | c :: rest => stableInsert c (sortClips rest)

/-- The previous clip's timeline end, jobs.js line 165:
`(prev.timelineStartFrame || 0) + (prev.endFrame - prev.startFrame)`. -/
def clipPrevEnd (c : Clip) : JSNum :=
  jadd (jOrZero c.timelineStartFrame) (jsub (jOf c.endFrame) (jOf c.startFrame))

/-- The adjacency loop of jobs.js lines 163-170: fail as soon as a clip
starts before the previous sorted clip ends. -/
def simpleOrderCheck : List Clip → Bool
  | [] => true
  | [_] => true
  | a :: b :: rest =>
      if jltB (jOrZero b.timelineStartFrame) (clipPrevEnd a) then false
      else simpleOrderCheck (b :: rest)

/-- jobs.js lines 150-173: `isSimpleTimeline` — non-timeline selectors and
empty timelines pass; a timeline export requires exactly one distinct
truthy source id and non-overlapping clips in sorted placement order. -/
def isSimpleTimeline (project : Project) (settings : Settings) : Bool :=
  let sourceRef := settings.source.getD defaultSel
  if sourceRef.kind ≠ "timeline" then true
  else
    let clips := (project.timeline.bind Timeline.clips).getD []
    if clips.length = 0 then true
    else
      let sourceIds := firstDedup (truthySourceIds clips)
      if sourceIds.length ≠ 1 then false
      else simpleOrderCheck (sortClips clips)

/-! ## Render parameter derivation (jobs.js) -/

/-- The project frame rate chain used at jobs.js lines 193 and 247/265:
`project?.timeline?.fps ?? project?.settings?.fps ?? 24`. -/
def jsProjectFps (project : Project) : JSNum :=
  (((project.timeline.bind Timeline.fps).orElse
      (fun _ => project.settings.bind ProjSettings.fps)).getD (.fin 24))

/-- jobs.js line 231: `ensureMinFrames = (frames) => Math.max(1, frames || 0)`. -/
def ensureMinFrames (x : JSNum) : JSNum :=
  jmax (.fin 1) (if jsTruthy x then x else .fin 0)

/-- The branch body of jobs.js lines 233-262 that may or may not assign
`frames` (`none` models `frames` left `undefined`). -/
def computeDurationFramesCore (project : Project) (source : SourceSel) : Option JSNum :=
  if source.kind = "timeline" then
    match source.inFrame, source.outFrame with
    | some i, some o => some (ensureMinFrames (jadd (jsub o i) (.fin 1)))
    | _, _ =>
        let clips := (project.timeline.bind Timeline.clips).getD []
        if clips.length > 0 then
          let minStart := jsMathMin (clips.map (fun c => jOf c.timelineStartFrame))
          let maxEnd := jsMathMax (clips.map (fun c =>
            jadd (jOf c.timelineStartFrame) (jsub (jOf c.endFrame) (jOf c.startFrame))))
          some (ensureMinFrames (jadd (jsub maxEnd minStart) (.fin 1)))
        else some (ensureMinFrames (jsProjectFps project))
  else if source.kind = "clip" && strTruthy source.clipId
      && (project.timeline.bind Timeline.clips).isSome then
    match ((project.timeline.bind Timeline.clips).getD []).find?
        (fun c => c.id = source.clipId) with
    | some clip => some (ensureMinFrames (jadd (jsub (jOf clip.endFrame) (jOf clip.startFrame)) (.fin 1)))
    | none => none
  else if source.kind = "source" && strTruthy source.sourceId && project.sources.isSome then
    match (project.sources.getD []).find? (fun s => s.id = source.sourceId) with
    | some src =>
        if jsTruthy (jOf src.durationFrames)
        then some (ensureMinFrames (jOf src.durationFrames))
        else none
    | none => none
  else none

/-- jobs.js lines 228-281: `computeDurationFrames`, including the final
`if (!frames)` fallback to one second at the project frame rate. -/
def computeDurationFrames (project : Project) (settings : Settings) : JSNum :=
  let source := settings.source.getD defaultSel
  match computeDurationFramesCore project source with
  | some f => if jsTruthy f then f else ensureMinFrames (jsProjectFps project)
  | none => ensureMinFrames (jsProjectFps project)

/-- The frame-rate selection of jobs.js lines 193-198: the project fps
chain unless fps mode is "override" with a truthy override value. -/
def selectedFps (project : Project) (settings : Settings) : JSNum :=
  if settings.fpsMode = some "override" && jsTruthy (jOf settings.fps)
  then jOf settings.fps else jsProjectFps project

/-- jobs.js lines 175-226: `deriveRenderParams` (the dev-only logging is
omitted; it does not affect the returned record). -/
def deriveRenderParams (project : Project) (settings : Settings) : RenderParams :=
  let projectWidth := (project.settings.bind ProjSettings.width).getD (.fin 640)
  let projectHeight := (project.settings.bind ProjSettings.height).getD (.fin 360)
  let width0 :=
    if settings.outputResolution = some "custom"
        && jsTruthy (jOf settings.width) && jsTruthy (jOf settings.height)
    then jOf settings.width else projectWidth
  let height0 :=
    if settings.outputResolution = some "custom"
        && jsTruthy (jOf settings.width) && jsTruthy (jOf settings.height)
    then jOf settings.height else projectHeight
  let scale := settings.renderResolutionScale.getD (.fin 1)
  let width := jmax (.fin 16) (jround (jmul width0 scale))
  let height := jmax (.fin 16) (jround (jmul height0 scale))
  let fps0 := selectedFps project settings
  let fps := if !jsIsFinite fps0 || jleB fps0 (.fin 0) then .fin 24 else fps0
  let durationFrames := computeDurationFrames project settings
  let durationSeconds := jmax (.fin (1 / 10)) (jdiv durationFrames fps)
  { width := width, height := height, fps := fps, durationSeconds := durationSeconds }

/-! ## Scheduler, job store and render pipeline (jobs.js) -/

/-- A queued submission (jobs.js line 689: `{ jobId, project, settings }`). -/
structure QueueEntry where
  jobId : String
  project : Project
  settings : Settings
deriving Repr

/-- The scheduler's mutable globals: the `JOBS` map (insertion-ordered
association list), the `RUNNING_JOBS` set and the FIFO `QUEUE`
(jobs.js lines 10, 22, 23). -/
structure SchedulerState where
  jobs : List (String × Job)
  running : List String
  queue : List QueueEntry

/-- jobs.js lines 20-21: the env-configured concurrency limit C and queue
capacity Q. -/
structure SchedConfig where
  maxConcurrentJobs : Nat
  maxQueueLength : Nat

/-- What `createJob` did with the submission. -/
inductive AdmitAction where
  | started
  | enqueued
  | rejected
deriving DecidableEq, Repr

/-- JS `Map.prototype.set`: replace in place when the key exists, else append. -/
def jobsSet (m : List (String × Job)) (k : String) (v : Job) : List (String × Job) :=
  if m.any (fun e => e.1 = k) then m.map (fun e => if e.1 = k then (k, v) else e)
  else m ++ [(k, v)]

/-- JS `Map.prototype.get` on the `JOBS` map. -/
def jobsGet (m : List (String × Job)) (k : String) : Option Job :=
  (m.find? (fun e => e.1 = k)).map Prod.snd

/-- The fresh job record of jobs.js lines 665-675 (status `queued`,
progress 0, no error, container from the settings or `mp4`, no download
path). -/
def mkQueuedJob (id : String) (settings : Option Settings) (clientVersion : Option String)
    (nowMs : ℚ) : Job :=
  let safeSettings := settings.getD emptySettings
  { id := id, status := "queued", progress := .fin 0, error := none,
    container := strOr safeSettings.container "mp4", createdAt := some nowMs,
    clientVersion := clientVersion, downloadPath := none }

/-- jobs.js lines 660-697: `createJob` — store the record, then start
immediately, enqueue, or (queue full) mark the already stored record
`failed`/`over_capacity`.  The mutation in the reject branch happens on
the object already stored in `JOBS`, so the stored record is the failed
one. -/
def createJob (cfg : SchedConfig) (st : SchedulerState) (id : String)
    (project : Project) (settings : Option Settings) (clientVersion : Option String)
    (nowMs : ℚ) : Job × SchedulerState × AdmitAction :=
  let safeSettings := settings.getD emptySettings
  let job := mkQueuedJob id settings clientVersion nowMs
  if st.running.length < cfg.maxConcurrentJobs then
    (job, { st with jobs := jobsSet st.jobs id job }, .started)
  else if st.queue.length < cfg.maxQueueLength then
    (job, { st with jobs := jobsSet st.jobs id job,
                    queue := st.queue ++ [⟨id, project, safeSettings⟩] }, .enqueued)
  else
    let jobF := { job with status := "failed", error := some "over_capacity",
                           progress := .fin 0 }
    (jobF, { st with jobs := jobsSet st.jobs id jobF }, .rejected)

/-- jobs.js line 320: the prune TTL, one hour in milliseconds. -/
def MAX_AGE_MS : ℚ := 60 * 60 * 1000

/-- The per-record prune test of jobs.js lines 322-323:
`const created = Date.parse(job.createdAt || '') || 0;
 if (created && now - created > MAX_AGE_MS)` — note no status check. -/
def shouldPrune (now : ℚ) (j : Job) : Bool :=
  match j.createdAt with
  | none => false
  | some created => created ≠ 0 && MAX_AGE_MS < now - created

/-- jobs.js lines 318-332: `pruneOldJobs` — walk the `JOBS` map, delete
the backing file when present (`unlinkSync` guarded by `existsSync`) and
remove the record, for every record past the TTL.  The filesystem is the
list of existing file paths. -/
def pruneOldJobs (now : ℚ) : List (String × Job) → List String →
    List (String × Job) × List String
  | [], files => ([], files)
  | (id, j) :: rest, files =>
      if shouldPrune now j then
        let files' :=
          match j.downloadPath with
          | some p => if p ≠ "" && p ∈ files then files.erase p else files
          | none => files
        pruneOldJobs now rest files'
      else
        let r := pruneOldJobs now rest files
        ((id, j) :: r.1, r.2)

/-- How far `startRenderJob` got before returning: one of the three
pre-encoder failures, or the ffmpeg invocation with the resolved input
and derived parameters. -/
inductive RenderOutcome where
  | failedUnsupported
  | failedMediaMissing
  | failedTooLarge
  | encoderInvoked (inputPath : String) (params : RenderParams)
deriving DecidableEq, Repr

/-- jobs.js lines 351-500 (up to the ffmpeg invocation):
`startRenderJob` — mark the job rendering with `downloadPath` already set
to the output path, then short-circuit to `failed` (clearing
`downloadPath`) on an unsupported timeline, unresolved media, or an
extreme-ceiling violation; otherwise the encoder is invoked. -/
def startRenderJobFun (fs : FSModel) (job : Job) (project : Project)
    (settings : Option Settings) : Job × RenderOutcome :=
  let safeSettings := settings.getD emptySettings
  let container := strOr safeSettings.container "mp4"
  let outputPath := TMP_DIR ++ "/" ++ job.id ++ "." ++ container
  let job1 := { job with status := "rendering", progress := .fin 0, error := none,
                         downloadPath := some outputPath }
  if !isSimpleTimeline project safeSettings then
    ({ job1 with status := "failed", error := some "unsupported_timeline",
                 progress := .fin 0, downloadPath := none }, .failedUnsupported)
  else
    let primarySource := resolvePrimarySource project safeSettings
    let inputPath := resolveMediaPathForSource fs project primarySource (some container)
    match primarySource, inputPath with
    | some _, some ip =>
        let p := deriveRenderParams project safeSettings
        if jltB (.fin EXTREME_MAX_DIMENSION) p.width
            || jltB (.fin EXTREME_MAX_DIMENSION) p.height
            || jltB (.fin EXTREME_MAX_DURATION_SECONDS) p.durationSeconds then
          ({ job1 with status := "failed", error := some "job_too_large",
                       downloadPath := none }, .failedTooLarge)
        else (job1, .encoderInvoked ip p)
    | _, _ =>
        ({ job1 with status := "failed", error := some "media_missing",
                     progress := .fin 0, downloadPath := none }, .failedMediaMissing)

/-- The progress update rule of jobs.js lines 597-606: take the reported
percentage when it is a number, else bump by one capped at 99; then
record `max(old, min(100, round(pct)))`.  `percent` is `some v` exactly
when `typeof progress.percent === 'number'` (NaN included). -/
def progressStep (p : JSNum) (percent : Option JSNum) : JSNum :=
  let pct :=
    match percent with
    | some v => v
    | none => jmin (.fin 99) (jadd p (.fin 1))
  jmax p (jmin (.fin 100) (jround pct))

/-- A progress callback applied to a job. -/
def applyProgress (j : Job) (percent : Option JSNum) : Job :=
  { j with progress := progressStep j.progress percent }

/-- The ffmpeg error handler, jobs.js lines 607-610: status `failed`,
error from `err?.code || err?.message || 'ffmpeg_error'`, progress reset —
`downloadPath` is left as it was. -/
def applyFfmpegError (j : Job) (code msg : Option String) : Job :=
  { j with status := "failed",
           error := some (strOr code (strOr msg "ffmpeg_error")),
           progress := .fin 0 }

/-- The ffmpeg end handler, jobs.js lines 641-643: status `complete`,
progress 100, `downloadPath` untouched. -/
def applyFfmpegEnd (j : Job) : Job :=
  { j with status := "complete", progress := .fin 100 }

/-- The successive progress values produced by a callback sequence. -/
def progressTrace (p0 : JSNum) (events : List (Option JSNum)) : List JSNum :=
  events.scanl progressStep p0

/-- The job states reachable through the jobs.js lifecycle: creation
(admitted or rejected over capacity), the start of a render, and the
encoder callbacks, which fire only while the job is rendering. -/
inductive Reachable : Job → Prop where
  | created (id : String) (settings : Option Settings) (clientVersion : Option String)
      (nowMs : ℚ) : Reachable (mkQueuedJob id settings clientVersion nowMs)
  | rejectedOverCapacity (id : String) (settings : Option Settings)
      (clientVersion : Option String) (nowMs : ℚ) :
      Reachable { mkQueuedJob id settings clientVersion nowMs with
                    status := "failed", error := some "over_capacity", progress := .fin 0 }
  | renderStarted (j : Job) (fs : FSModel) (project : Project) (settings : Option Settings) :
      Reachable j → j.status = "queued" →
      Reachable (startRenderJobFun fs j project settings).1
  | progressed (j : Job) (percent : Option JSNum) :
      Reachable j → j.status = "rendering" → Reachable (applyProgress j percent)
  | ffmpegErrored (j : Job) (code msg : Option String) :
      Reachable j → j.status = "rendering" → Reachable (applyFfmpegError j code msg)
  | ffmpegEnded (j : Job) :
      Reachable j → j.status = "rendering" → Reachable (applyFfmpegEnd j)

/-- exportsRoutes.js line 31: the status response's `downloadUrl`,
`job.downloadPath ? `/exports/id/download` : null`. -/
def statusDownloadUrl (j : Job) : Option String :=
  match j.downloadPath with
  | some p => if p = "" then none else some ("/exports/" ++ j.id ++ "/download")
  | none => none

/-! ## Shared helper lemmas -/

/-- A project with no fields, the `project || {}` default. -/
def emptyProject : Project := { settings := none, timeline := none, sources := none }

theorem ensureMinFrames_fin (q : ℚ) : ensureMinFrames (.fin q) = .fin (max 1 q) := by
  unfold ensureMinFrames
  by_cases h : q = 0
  · subst h; simp [jsTruthy, jmax_fin]
  · simp [jsTruthy, h, jmax_fin]

theorem ensureMinFrames_nan : ensureMinFrames .nan = .fin 1 := by
  unfold ensureMinFrames
  simp [jsTruthy, jmax_fin]

theorem find?_map_set (m : List (String × Job)) (k : String) (v : Job)
    (h : m.any (fun e => e.1 = k) = true) :
    (m.map (fun e => if e.1 = k then (k, v) else e)).find? (fun e => e.1 = k) = some (k, v) := by
  induction m with
  | nil => simp at h
  | cons e rest ih =>
    by_cases hek : e.1 = k
    · simp [hek, List.find?]
    · simp only [List.any_cons, decide_eq_true_eq, hek, false_or, Bool.false_or] at h
      simp [hek, List.find?, ih h]

theorem find?_none_of_no_key (m : List (String × Job)) (k : String)
    (h : m.any (fun e => e.1 = k) = false) :
    m.find? (fun e => e.1 = k) = none := by
  rw [List.find?_eq_none]
  intro x hx
  simp only [List.any_eq_false] at h
  simpa using h x hx

theorem jobsGet_jobsSet (m : List (String × Job)) (k : String) (v : Job) :
    jobsGet (jobsSet m k v) k = some v := by
  unfold jobsSet jobsGet
  by_cases h : m.any (fun e => e.1 = k) = true
  · simp only [h, if_true, find?_map_set m k v h, Option.map_some']
  · rw [Bool.not_eq_true] at h
    simp only [h, Bool.false_eq_true, if_false]
    have hnone := find?_none_of_no_key m k h
    induction m with
    | nil => simp [List.find?]
    | cons e rest ih =>
      have he : ¬ (e.1 = k) := by
        intro hk
        have : (List.find? (fun e => decide (e.1 = k)) (e :: rest)) ≠ none := by
          simp [List.find?, hk]
        exact this hnone
      have htail : rest.find? (fun e => e.1 = k) = none := by
        simpa [List.find?, he] using hnone
      have hany : rest.any (fun e => e.1 = k) = false := by
        simp only [List.any_cons, he, decide_eq_true_eq, Bool.false_or] at h
        simpa using h
      simpa [List.find?, he] using ih hany htail

/-! ## C4: over-capacity admission -/

/-- C4: when the concurrency limit is saturated and the queue is full,
`createJob` stores and returns a record that is immediately `failed` with
error `over_capacity`; the submission is rejected, not blocked or
dropped. -/
theorem c4_over_capacity (cfg : SchedConfig) (st : SchedulerState) (id : String)
    (project : Project) (settings : Option Settings) (cv : Option String) (now : ℚ)
    (hrun : st.running.length = cfg.maxConcurrentJobs)
    (hq : st.queue.length = cfg.maxQueueLength) :
    (createJob cfg st id project settings cv now).1.status = "failed" ∧
    (createJob cfg st id project settings cv now).1.error = some "over_capacity" ∧
    (createJob cfg st id project settings cv now).2.2 = .rejected ∧
    jobsGet (createJob cfg st id project settings cv now).2.1.jobs id =
      some (createJob cfg st id project settings cv now).1 := by
  have h1 : ¬ (st.running.length < cfg.maxConcurrentJobs) := by omega
  have h2 : ¬ (st.queue.length < cfg.maxQueueLength) := by omega
  simp only [createJob, if_neg h1, if_neg h2]
  exact ⟨trivial, trivial, trivial, jobsGet_jobsSet _ _ _⟩

/-- Witness for C4 at a concrete saturated state (C = Q = 1). -/
theorem c4_over_capacity_witness :
    (createJob ⟨1, 1⟩
        ⟨[], ["r1"], [⟨"q1", emptyProject, emptySettings⟩]⟩
        "j2" emptyProject none none 0).1.status = "failed" ∧
    (createJob ⟨1, 1⟩
        ⟨[], ["r1"], [⟨"q1", emptyProject, emptySettings⟩]⟩
        "j2" emptyProject none none 0).1.error = some "over_capacity" ∧
    (createJob ⟨1, 1⟩
        ⟨[], ["r1"], [⟨"q1", emptyProject, emptySettings⟩]⟩
        "j2" emptyProject none none 0).2.2 = .rejected ∧
    jobsGet (createJob ⟨1, 1⟩
        ⟨[], ["r1"], [⟨"q1", emptyProject, emptySettings⟩]⟩
        "j2" emptyProject none none 0).2.1.jobs "j2" =
      some (createJob ⟨1, 1⟩
        ⟨[], ["r1"], [⟨"q1", emptyProject, emptySettings⟩]⟩
        "j2" emptyProject none none 0).1 :=
  c4_over_capacity ⟨1, 1⟩ ⟨[], ["r1"], [⟨"q1", emptyProject, emptySettings⟩]⟩
    "j2" emptyProject none none 0 rfl rfl

/-! ## C2: prune sweep ignores job status -/

/-- A rendering job past the TTL, with its in-progress output file. -/
def c2Job : Job :=
  { id := "j1", status := "rendering", progress := .fin 50, error := none,
    container := "mp4", createdAt := some 1, clientVersion := none,
    downloadPath := some "/tmp/dmosh-export-service/j1.mp4" }

/-- C2 counterexample: `pruneOldJobs` deletes a `rendering` record older
than the TTL, and unlinks its backing output file, contradicting the
claim that queued/rendering records are never touched. -/
theorem c2_counterexample :
    c2Job.status = "rendering" ∧
    (pruneOldJobs 3600002 [("j1", c2Job)] ["/tmp/dmosh-export-service/j1.mp4"]).1 = [] ∧
    (pruneOldJobs 3600002 [("j1", c2Job)] ["/tmp/dmosh-export-service/j1.mp4"]).2 = [] := by
  have hsp : shouldPrune 3600002 c2Job = true := by
    simp only [shouldPrune, c2Job, MAX_AGE_MS]
    norm_num
  have hrun : pruneOldJobs 3600002 [("j1", c2Job)] ["/tmp/dmosh-export-service/j1.mp4"]
      = ([], []) := by
    simp only [pruneOldJobs, hsp, if_true]
    simp +decide [c2Job, List.erase]
  exact ⟨rfl, by rw [hrun], by rw [hrun]⟩

/-- C2 amended: the prune sweep removes exactly the records whose parsed
`createdAt` is nonzero and older than the TTL — the test is independent
of the record's status, so `queued` and `rendering` records past the TTL
are removed like any others. -/
theorem c2_amended_prune_by_age (now : ℚ) (jobs : List (String × Job)) (files : List String) :
    (pruneOldJobs now jobs files).1 = jobs.filter (fun e => !shouldPrune now e.2) ∧
    (∀ (j : Job) (s : String), shouldPrune now { j with status := s } = shouldPrune now j) := by
  constructor
  · induction jobs generalizing files with
    | nil => simp [pruneOldJobs]
    | cons e rest ih =>
      obtain ⟨id, j⟩ := e
      by_cases h : shouldPrune now j
      · simp [pruneOldJobs, h, ih]
      · simp [pruneOldJobs, h, ih]
  · intro j s
    rfl

/-! ## C3: invalid frame range gives the 1-frame floor, not one second -/

/-- Project with timeline fps 24 and no clips. -/
def c3Project : Project :=
  { settings := none, timeline := some { fps := some (.fin 24), clips := some [] },
    sources := none }

/-- Timeline selector with inverted frame range 10 > 5. -/
def c3Settings : Settings :=
  { emptySettings with
      source := some { kind := "timeline", sourceId := none, clipId := none,
                       inFrame := some (.fin 10), outFrame := some (.fin 5) } }

/-- Evaluation of `computeDurationFrames` on the inverted-range input. -/
theorem c3_eval : computeDurationFrames c3Project c3Settings = .fin 1 := by
  have hval : jadd (jsub (.fin 5) (.fin 10)) (.fin 1) = .fin (-4) := by
    rw [jsub_fin, jadd_fin]; norm_num
  have hmax : max (1:ℚ) (-4) = 1 := by norm_num
  simp [computeDurationFrames, computeDurationFramesCore, c3Settings, emptySettings,
    hval, ensureMinFrames_fin, hmax, jsTruthy]

/-- C3 counterexample: with project fps 24 and an inverted range,
`computeDurationFrames` returns 1 frame, not the claimed one second at
project fps (24 frames). -/
theorem c3_counterexample :
    computeDurationFrames c3Project c3Settings = .fin 1 ∧
    jsProjectFps c3Project = .fin 24 ∧
    computeDurationFrames c3Project c3Settings ≠ .fin 24 := by
  refine ⟨c3_eval, by simp [jsProjectFps, c3Project], ?_⟩
  rw [c3_eval]
  intro hc
  exact absurd (JSNum.fin.inj hc) (by norm_num)

/-- C3 amended: for a timeline selector whose numeric `inFrame` exceeds
`outFrame`, `computeDurationFrames` returns the 1-frame minimum enforced
by `ensureMinFrames` — no error, but also not the one-second default. -/
theorem c3_amended_invalid_range_one_frame (project : Project) (settings : Settings)
    (sel : SourceSel) (i o : ℚ)
    (hsel : settings.source = some sel) (hkind : sel.kind = "timeline")
    (hin : sel.inFrame = some (.fin i)) (hout : sel.outFrame = some (.fin o))
    (hlt : o < i) :
    computeDurationFrames project settings = .fin 1 := by
  have h1 : max 1 (o - i + 1) = 1 := max_eq_left (by linarith)
  have hval : jadd (jsub (.fin o) (.fin i)) (.fin 1) = .fin (o - i + 1) := by
    rw [jsub_fin, jadd_fin]
  simp [computeDurationFrames, computeDurationFramesCore, hsel, hkind, hin, hout,
    hval, ensureMinFrames_fin, h1, jsTruthy]

/-- Witness for C3 amended at the concrete inverted range 10 > 5. -/
theorem c3_amended_witness : computeDurationFrames c3Project c3Settings = .fin 1 :=
  c3_amended_invalid_range_one_frame c3Project c3Settings _ 10 5 rfl rfl rfl rfl
    (by norm_num)

/-! ## C8: deriveRenderParams applies no upper clamp -/

theorem floor_add_half_int (k : ℤ) : ⌊(k : ℚ) + 1 / 2⌋ = k := by
  refine Int.floor_eq_iff.mpr ⟨by linarith [show (0:ℚ) ≤ 1 / 2 by norm_num], ?_⟩
  linarith [show (1:ℚ) / 2 < 1 by norm_num]

/-- Project with timeline fps 1000 (finite, positive, above any plausible
fps cap) and nothing else. -/
def c8Project : Project :=
  { settings := none, timeline := some { fps := some (.fin 1000), clips := none },
    sources := none }

/-- Custom 10000x10000 output request. -/
def c8Settings : Settings :=
  { emptySettings with
      outputResolution := some "custom",
      width := some (.fin 10000), height := some (.fin 10000) }

/-- C8 counterexample: the derived width/height pass through at 10000 —
above both the soft maximum (3840/2160) and the extreme ceiling (8192) —
and the derived fps passes through at 1000; `deriveRenderParams` clamps
none of them to any configured maximum. -/
theorem c8_counterexample :
    (deriveRenderParams c8Project c8Settings).width = .fin 10000 ∧
    (deriveRenderParams c8Project c8Settings).height = .fin 10000 ∧
    (deriveRenderParams c8Project c8Settings).fps = .fin 1000 ∧
    SOFT_MAX_WIDTH < 10000 ∧ SOFT_MAX_HEIGHT < 10000 ∧ EXTREME_MAX_DIMENSION < 10000 := by
  have hround : jround (jmul (.fin 10000) (.fin 1)) = .fin 10000 := by
    rw [jmul_fin, jround_fin]
    norm_num [show ((10000:ℚ) * 1 + 1 / 2) = 10000 + 1 / 2 by ring,
      floor_add_half_int 10000]
  have hfloor : (⌊(10000:ℚ) * 1 + 1 / 2⌋ : ℤ) = 10000 := by
    rw [show ((10000:ℚ) * 1 + 1 / 2) = ((10000:ℤ):ℚ) + 1 / 2 by norm_num]
    exact floor_add_half_int 10000
  refine ⟨?_, ?_, ?_, by norm_num [SOFT_MAX_WIDTH], by norm_num [SOFT_MAX_HEIGHT],
      by norm_num [EXTREME_MAX_DIMENSION]⟩ <;>
    simp [deriveRenderParams, c8Project, c8Settings, emptySettings, selectedFps,
      jsProjectFps, computeDurationFrames, computeDurationFramesCore, defaultSel,
      ensureMinFrames, jsTruthy, jOf, jmul_fin, jround_fin, jmax_fin, jmin, jltB, jleB,
      jsIsFinite, jadd, jsub, jneg, jdiv, hfloor] <;>
    norm_num

/-- C8 amended: `deriveRenderParams` does not clamp to any upper maximum:
every custom width/height at least 16 is returned unchanged (the only
geometry adjustment below any cap is the 16px floor), and every positive
finite override fps is returned unchanged.  The soft maxima merely
trigger caller-side warnings and the extreme ceilings are enforced by the
caller, not by `deriveRenderParams`. -/
theorem c8_amended_no_upper_clamp :
    (∀ w : ℤ, 16 ≤ w →
      (deriveRenderParams emptyProject
        { emptySettings with
            outputResolution := some "custom",
            width := some (.fin (w : ℚ)), height := some (.fin (w : ℚ)) }).width
        = .fin (w : ℚ)) ∧
    (∀ f : ℚ, 0 < f →
      (deriveRenderParams emptyProject
        { emptySettings with
            fpsMode := some "override", fps := some (.fin f) }).fps
        = .fin f) := by
  constructor
  · intro w hw
    have hwq : (16 : ℚ) ≤ (w : ℚ) := by exact_mod_cast hw
    have hw0 : ((w : ℚ)) ≠ 0 := by
      intro h
      rw [h] at hwq
      norm_num at hwq
    have hmul : jmul (.fin (w : ℚ)) (.fin 1) = .fin (w : ℚ) := by
      rw [jmul_fin, mul_one]
    have hfl : (⌊(w : ℚ) + 1 / 2⌋ : ℤ) = w := floor_add_half_int w
    have hmax : max (16 : ℚ) ((w : ℚ)) = (w : ℚ) := max_eq_right hwq
    simp [deriveRenderParams, emptySettings, jsTruthy, jOf, hw0, hmul, jround_fin,
      hfl, jmax_fin, hmax]
    norm_num [hmax]
  · intro f hf
    have hf0 : f ≠ 0 := ne_of_gt hf
    have hnle : ¬ (f ≤ 0) := not_le_of_lt hf
    simp [deriveRenderParams, selectedFps, emptySettings, jsTruthy, jOf, hf0,
      jsIsFinite, jleB, hnle]

/-- Witness for C8 amended at width 10000 and override fps 1000. -/
theorem c8_amended_no_upper_clamp_witness :
    (deriveRenderParams emptyProject
      { emptySettings with
          outputResolution := some "custom",
          width := some (.fin ((10000 : ℤ) : ℚ)), height := some (.fin ((10000 : ℤ) : ℚ)) }).width
      = .fin ((10000 : ℤ) : ℚ) ∧
    (deriveRenderParams emptyProject
      { emptySettings with
          fpsMode := some "override", fps := some (.fin 1000) }).fps
      = .fin 1000 :=
  ⟨c8_amended_no_upper_clamp.1 10000 (by norm_num),
   c8_amended_no_upper_clamp.2 1000 (by norm_num)⟩

/-! ## C6: media candidate order -/

/-- C6: for any filesystem state, a source with a truthy hash and a truthy
preferred container probes exactly the spec's candidate order and returns
the first candidate that exists with non-zero size (`none` when no
candidate matches, and never an exception — every per-candidate error is
caught). -/
theorem c6_candidate_order (fs : FSModel) (project : Project) (src : SourceObj)
    (h c : String) (hhash : src.hash = some h) (hne : h ≠ "") (hcne : c ≠ "") :
    resolveMediaPathForSource fs project (some src) (some c) =
      (specCandidateOrder h src.originalName c).find? (fileOk fs) := by
  have hlist : getMediaCandidatePaths (some h) src.originalName (some c) =
      specCandidateOrder h src.originalName c := by
    simp [getMediaCandidatePaths, specCandidateOrder, hne, hcne, strOr, strTruthy,
      jsPathJoin, String.append_assoc]
  simp [resolveMediaPathForSource, strTruthy, hhash, hne, hlist]

/-- Filesystem with `<hash>.mp4` and `<hash>.mov` both present and
non-empty. -/
def c6Fs : FSModel :=
  { existsSync := fun p => p = "/tmp/dmosh-media/h.mp4" || p = "/tmp/dmosh-media/h.mov",
    statSize := fun p =>
      if p = "/tmp/dmosh-media/h.mp4" || p = "/tmp/dmosh-media/h.mov" then some 1 else none }

/-- Source with hash `h`. -/
def c6Src : SourceObj :=
  { id := some "s1", hash := some "h", originalName := none, durationFrames := none }

/-- Witness for C6: with both `h.mp4` and `h.mov` on disk and preferred
container mp4, resolution returns the mp4 path. -/
theorem c6_candidate_order_witness :
    resolveMediaPathForSource c6Fs emptyProject (some c6Src) (some "mp4") =
      some "/tmp/dmosh-media/h.mp4" := by
  rw [c6_candidate_order c6Fs emptyProject c6Src "h" "mp4" rfl (by decide) (by decide)]
  simp +decide [specCandidateOrder, c6Src, safeBaseName, fileOk, c6Fs, jsPathJoin]

/-! ## C9: progress monotonicity and clamping -/

theorem progressStep_int (n : ℤ) (e : Option JSNum)
    (h0 : 0 ≤ n) (h100 : n ≤ 100)
    (he : e = none ∨ ∃ q : ℚ, e = some (.fin q)) :
    ∃ m : ℤ, progressStep (.fin (n : ℚ)) e = .fin (m : ℚ) ∧ n ≤ m ∧ 0 ≤ m ∧ m ≤ 100 := by
  rcases he with rfl | ⟨q, rfl⟩
  · refine ⟨max n (min 100 (min 99 (n + 1))), ?_, ?_, ?_, ?_⟩
    · have h1 : jadd (.fin (n : ℚ)) (.fin 1) = .fin ((n : ℚ) + 1) := jadd_fin _ _
      have hmin99 : jmin (.fin 99) (.fin ((n : ℚ) + 1)) = .fin ((min 99 (n + 1) : ℤ) : ℚ) := by
        rw [jmin_fin]
        push_cast
        ring_nf
      have hround : jround (.fin ((min 99 (n + 1) : ℤ) : ℚ)) =
          .fin ((min 99 (n + 1) : ℤ) : ℚ) := by
        rw [jround_fin, floor_add_half_int]
      have hmin100 : jmin (.fin 100) (.fin ((min 99 (n + 1) : ℤ) : ℚ)) =
          .fin ((min 100 (min 99 (n + 1)) : ℤ) : ℚ) := by
        rw [jmin_fin]
        push_cast
        ring_nf
      have hmax : jmax (.fin (n : ℚ)) (.fin ((min 100 (min 99 (n + 1)) : ℤ) : ℚ)) =
          .fin ((max n (min 100 (min 99 (n + 1))) : ℤ) : ℚ) := by
        rw [jmax_fin]
        push_cast
        ring_nf
      simp only [progressStep, h1, hmin99, hround, hmin100, hmax]
    · exact le_max_left _ _
    · exact le_trans h0 (le_max_left _ _)
    · have : min 100 (min 99 (n + 1)) ≤ 100 := min_le_left _ _
      omega
  · refine ⟨max n (min 100 ⌊q + 1 / 2⌋), ?_, ?_, ?_, ?_⟩
    · have hround : jround (.fin q) = .fin ((⌊q + 1 / 2⌋ : ℤ) : ℚ) := jround_fin q
      have hmin100 : jmin (.fin 100) (.fin ((⌊q + 1 / 2⌋ : ℤ) : ℚ)) =
          .fin ((min 100 ⌊q + 1 / 2⌋ : ℤ) : ℚ) := by
        rw [jmin_fin]
        push_cast
        ring_nf
      have hmax : jmax (.fin (n : ℚ)) (.fin ((min 100 ⌊q + 1 / 2⌋ : ℤ) : ℚ)) =
          .fin ((max n (min 100 ⌊q + 1 / 2⌋) : ℤ) : ℚ) := by
        rw [jmax_fin]
        push_cast
        ring_nf
      simp only [progressStep, hround, hmin100, hmax]
    · exact le_max_left _ _
    · exact le_trans h0 (le_max_left _ _)
    · have : min 100 ⌊q + 1 / 2⌋ ≤ 100 := min_le_left _ _
      omega

theorem progressTrace_good (n0 : ℤ) (events : List (Option JSNum))
    (h0 : 0 ≤ n0) (h100 : n0 ≤ 100)
    (hev : ∀ e ∈ events, e = none ∨ ∃ q : ℚ, e = some (.fin q)) :
    (∀ v ∈ progressTrace (.fin (n0 : ℚ)) events,
        ∃ n : ℤ, v = .fin (n : ℚ) ∧ 0 ≤ n ∧ n ≤ 100) ∧
    List.Chain' (fun a b => ∃ x y : ℚ, a = .fin x ∧ b = .fin y ∧ x ≤ y)
      (progressTrace (.fin (n0 : ℚ)) events) := by
  induction events generalizing n0 with
  | nil =>
    refine ⟨?_, ?_⟩
    · intro v hv
      simp only [progressTrace, List.scanl] at hv
      rcases List.mem_singleton.mp hv with rfl
      exact ⟨n0, rfl, h0, h100⟩
    · simp [progressTrace, List.scanl]
  | cons e es ih =>
    obtain ⟨m, hm, hnm, hm0, hm100⟩ :=
      progressStep_int n0 e h0 h100 (hev e (List.mem_cons_self e es))
    have hev' : ∀ x ∈ es, x = none ∨ ∃ q : ℚ, x = some (.fin q) :=
      fun x hx => hev x (List.mem_cons_of_mem e hx)
    obtain ⟨ihmem, ihchain⟩ := ih m hm0 hm100 hev'
    have htrace : progressTrace (.fin (n0 : ℚ)) (e :: es) =
        .fin (n0 : ℚ) :: progressTrace (.fin (m : ℚ)) es := by
      simp only [progressTrace, List.scanl, hm]
    refine ⟨?_, ?_⟩
    · intro v hv
      rw [htrace] at hv
      rcases List.mem_cons.mp hv with rfl | hv'
      · exact ⟨n0, rfl, h0, h100⟩
      · exact ihmem v hv'
    · rw [htrace]
      refine List.chain'_cons'.mpr ⟨?_, ihchain⟩
      intro y hy
      have hhead : (progressTrace (.fin (m : ℚ)) es).head? = some (.fin (m : ℚ)) := by
        cases es <;> simp [progressTrace, List.scanl]
      rw [hhead] at hy
      cases hy
      exact ⟨(n0 : ℚ), (m : ℚ), rfl, rfl, by exact_mod_cast hnm⟩

/-- C9: starting from any integer progress in [0, 100] (a fresh render
starts at 0), every recorded value along any sequence of encoder progress
callbacks carrying real (finite) or missing percentages stays an integer
in [0, 100] and the recorded sequence is non-decreasing; and a callback
with no numeric percentage raises progress by at most one point and never
pushes it past 99. -/
theorem c9_progress_monotone_clamped (n0 : ℤ) (events : List (Option JSNum))
    (h0 : 0 ≤ n0) (h100 : n0 ≤ 100)
    (hev : ∀ e ∈ events, e = none ∨ ∃ q : ℚ, e = some (.fin q)) :
    ((∀ v ∈ progressTrace (.fin (n0 : ℚ)) events,
        ∃ n : ℤ, v = .fin (n : ℚ) ∧ 0 ≤ n ∧ n ≤ 100) ∧
      List.Chain' (fun a b => ∃ x y : ℚ, a = .fin x ∧ b = .fin y ∧ x ≤ y)
        (progressTrace (.fin (n0 : ℚ)) events)) ∧
    (∀ n : ℤ, 0 ≤ n → n ≤ 100 →
      ∃ m : ℤ, progressStep (.fin (n : ℚ)) none = .fin (m : ℚ) ∧
        m ≤ n + 1 ∧ (n ≤ 99 → m ≤ 99)) := by
  refine ⟨progressTrace_good n0 events h0 h100 hev, ?_⟩
  intro n hn0 hn100
  refine ⟨max n (min 100 (min 99 (n + 1))), ?_, by omega, by omega⟩
  obtain ⟨m, hm, _, _, _⟩ := progressStep_int n none hn0 hn100 (Or.inl rfl)
  rw [hm]
  congr 1
  have hexp : progressStep (.fin (n : ℚ)) none =
      .fin ((max n (min 100 (min 99 (n + 1))) : ℤ) : ℚ) := by
    have h1 : jadd (.fin (n : ℚ)) (.fin 1) = .fin ((n : ℚ) + 1) := jadd_fin _ _
    have hmin99 : jmin (.fin 99) (.fin ((n : ℚ) + 1)) = .fin ((min 99 (n + 1) : ℤ) : ℚ) := by
      rw [jmin_fin]
      push_cast
      ring_nf
    have hround : jround (.fin ((min 99 (n + 1) : ℤ) : ℚ)) =
        .fin ((min 99 (n + 1) : ℤ) : ℚ) := by
      rw [jround_fin, floor_add_half_int]
    have hmin100 : jmin (.fin 100) (.fin ((min 99 (n + 1) : ℤ) : ℚ)) =
        .fin ((min 100 (min 99 (n + 1)) : ℤ) : ℚ) := by
      rw [jmin_fin]
      push_cast
      ring_nf
    have hmax : jmax (.fin (n : ℚ)) (.fin ((min 100 (min 99 (n + 1)) : ℤ) : ℚ)) =
        .fin ((max n (min 100 (min 99 (n + 1))) : ℤ) : ℚ) := by
      rw [jmax_fin]
      push_cast
      ring_nf
    simp only [progressStep, h1, hmin99, hround, hmin100, hmax]
  rw [hm] at hexp
  exact_mod_cast (JSNum.fin.inj hexp)

/-- Witness for C9 at progress 0 and the out-of-order callback sequence
50%, 30%, then a callback without a percentage. -/
theorem c9_progress_monotone_clamped_witness :
    ((∀ v ∈ progressTrace (.fin ((0 : ℤ) : ℚ)) [some (.fin 50), some (.fin 30), none],
        ∃ n : ℤ, v = .fin (n : ℚ) ∧ 0 ≤ n ∧ n ≤ 100) ∧
      List.Chain' (fun a b => ∃ x y : ℚ, a = .fin x ∧ b = .fin y ∧ x ≤ y)
        (progressTrace (.fin ((0 : ℤ) : ℚ)) [some (.fin 50), some (.fin 30), none])) ∧
    (∀ n : ℤ, 0 ≤ n → n ≤ 100 →
      ∃ m : ℤ, progressStep (.fin (n : ℚ)) none = .fin (m : ℚ) ∧
        m ≤ n + 1 ∧ (n ≤ 99 → m ≤ 99)) :=
  c9_progress_monotone_clamped 0 [some (.fin 50), some (.fin 30), none]
    (by norm_num) (by norm_num)
    (by
      intro e he
      simp only [List.mem_cons, List.not_mem_nil, or_false] at he
      rcases he with rfl | rfl | rfl
      · exact Or.inr ⟨50, rfl⟩
      · exact Or.inr ⟨30, rfl⟩
      · exact Or.inl rfl)

/-! ## C5: multi-source whole-timeline exports fail before the encoder -/

/-- C5: when the selector is timeline-kind (or absent) and the timeline's
clips carry at least two distinct truthy source ids, `startRenderJob`
fails the job with `unsupported_timeline` and the encoder is never
invoked. -/
theorem c5_multi_source_unsupported (fs : FSModel) (job : Job) (project : Project)
    (settings : Settings)
    (hsel : settings.source = none ∨
      ∃ sel, settings.source = some sel ∧ sel.kind = "timeline")
    (hmulti : 2 ≤ (firstDedup (truthySourceIds
        ((project.timeline.bind Timeline.clips).getD []))).length) :
    (startRenderJobFun fs job project (some settings)).1.status = "failed" ∧
    (startRenderJobFun fs job project (some settings)).1.error =
      some "unsupported_timeline" ∧
    (startRenderJobFun fs job project (some settings)).2 = .failedUnsupported := by
  have hks : (settings.source.getD defaultSel).kind = "timeline" := by
    rcases hsel with h | ⟨sel, hs, hk⟩
    · rw [h]; rfl
    · rw [hs]; exact hk
  have hnz : ((project.timeline.bind Timeline.clips).getD []).length ≠ 0 := by
    intro hz
    rw [List.length_eq_zero] at hz
    rw [hz] at hmulti
    simp [truthySourceIds, firstDedup] at hmulti
  have hlen : (firstDedup (truthySourceIds
      ((project.timeline.bind Timeline.clips).getD []))).length ≠ 1 := by omega
  have hsimple : isSimpleTimeline project settings = false := by
    unfold isSimpleTimeline
    simp [hks, hnz, hlen]
  simp [startRenderJobFun, hsimple]

/-- Two clips pointing at distinct sources. -/
def c5Project : Project :=
  { settings := none,
    timeline := some
      { fps := none,
        clips := some
          [{ id := some "c1", sourceId := some "a", startFrame := some (.fin 0),
             endFrame := some (.fin 10), timelineStartFrame := some (.fin 0) },
           { id := some "c2", sourceId := some "b", startFrame := some (.fin 0),
             endFrame := some (.fin 10), timelineStartFrame := some (.fin 20) }] },
    sources := none }

/-- An arbitrary empty filesystem. -/
def fsEmpty : FSModel := { existsSync := fun _ => false, statSize := fun _ => none }

/-- Witness for C5 on a concrete two-source timeline. -/
theorem c5_multi_source_unsupported_witness :
    (startRenderJobFun fsEmpty (mkQueuedJob "j5" none none 0) c5Project
        (some emptySettings)).1.status = "failed" ∧
    (startRenderJobFun fsEmpty (mkQueuedJob "j5" none none 0) c5Project
        (some emptySettings)).1.error = some "unsupported_timeline" ∧
    (startRenderJobFun fsEmpty (mkQueuedJob "j5" none none 0) c5Project
        (some emptySettings)).2 = .failedUnsupported :=
  c5_multi_source_unsupported fsEmpty (mkQueuedJob "j5" none none 0) c5Project
    emptySettings (Or.inl rfl)
    (by simp +decide [c5Project, truthySourceIds, firstDedup])

/-! ## C10: overlapping single-source timelines fail before the encoder -/

theorem simpleOrderCheck_false_of_violation (l : List Clip) (i : ℕ) (a b : Clip)
    (ha : l[i]? = some a) (hb : l[i + 1]? = some b)
    (hviol : jltB (jOrZero b.timelineStartFrame) (clipPrevEnd a) = true) :
    simpleOrderCheck l = false := by
  induction l generalizing i with
  | nil => simp at ha
  | cons x rest ih =>
    cases rest with
    | nil =>
      rcases i with _ | n <;> simp at hb
    | cons y rest' =>
      cases i with
      | zero =>
        have ha0 : x = a := by simpa using ha
        have hb0 : y = b := by simpa using hb
        subst ha0
        subst hb0
        simp only [simpleOrderCheck, hviol, if_true]
      | succ n =>
        have ha' : (y :: rest')[n]? = some a := by simpa using ha
        have hb' : (y :: rest')[n + 1]? = some b := by simpa using hb
        have hrec := ih n ha' hb'
        by_cases hcond : jltB (jOrZero y.timelineStartFrame) (clipPrevEnd x) = true
        · simp only [simpleOrderCheck, hcond, if_true]
        · simp only [simpleOrderCheck, hcond, if_false, Bool.false_eq_true]
          exact hrec

/-- C10: a whole-timeline export whose clips all share one truthy source
id but overlap in sorted placement order (some clip starts before the
previous one ends) fails with `unsupported_timeline` before the encoder
is invoked, even though the single-source requirement is met. -/
theorem c10_overlap_unsupported (fs : FSModel) (job : Job) (project : Project)
    (settings : Settings) (i : ℕ) (a b : Clip)
    (hsel : settings.source = none ∨
      ∃ sel, settings.source = some sel ∧ sel.kind = "timeline")
    (hsingle : (firstDedup (truthySourceIds
        ((project.timeline.bind Timeline.clips).getD []))).length = 1)
    (ha : (sortClips ((project.timeline.bind Timeline.clips).getD []))[i]? = some a)
    (hb : (sortClips ((project.timeline.bind Timeline.clips).getD []))[i + 1]? = some b)
    (hviol : jltB (jOrZero b.timelineStartFrame) (clipPrevEnd a) = true) :
    (startRenderJobFun fs job project (some settings)).1.status = "failed" ∧
    (startRenderJobFun fs job project (some settings)).1.error =
      some "unsupported_timeline" ∧
    (startRenderJobFun fs job project (some settings)).2 = .failedUnsupported := by
  have hks : (settings.source.getD defaultSel).kind = "timeline" := by
    rcases hsel with h | ⟨sel, hs, hk⟩
    · rw [h]; rfl
    · rw [hs]; exact hk
  have hnz : ((project.timeline.bind Timeline.clips).getD []).length ≠ 0 := by
    intro hz
    rw [List.length_eq_zero] at hz
    rw [hz] at hb
    simp [sortClips] at hb
  have hcheck : simpleOrderCheck
      (sortClips ((project.timeline.bind Timeline.clips).getD [])) = false :=
    simpleOrderCheck_false_of_violation _ i a b ha hb hviol
  have hsimple : isSimpleTimeline project settings = false := by
    unfold isSimpleTimeline
    simp [hks, hnz, hsingle, hcheck]
  simp [startRenderJobFun, hsimple]

/-- Two overlapping clips of the same source: the second starts at frame 5
while the first spans frames 0-10. -/
def c10Project : Project :=
  { settings := none,
    timeline := some
      { fps := none,
        clips := some
          [{ id := some "c1", sourceId := some "a", startFrame := some (.fin 0),
             endFrame := some (.fin 10), timelineStartFrame := some (.fin 0) },
           { id := some "c2", sourceId := some "a", startFrame := some (.fin 0),
             endFrame := some (.fin 10), timelineStartFrame := some (.fin 5) }] },
    sources := none }

/-- The two clips of `c10Project`. -/
def c10ClipA : Clip :=
  { id := some "c1", sourceId := some "a", startFrame := some (.fin 0),
    endFrame := some (.fin 10), timelineStartFrame := some (.fin 0) }

def c10ClipB : Clip :=
  { id := some "c2", sourceId := some "a", startFrame := some (.fin 0),
    endFrame := some (.fin 10), timelineStartFrame := some (.fin 5) }

/-- Witness for C10 on the concrete overlapping single-source timeline. -/
theorem c10_overlap_unsupported_witness :
    (startRenderJobFun fsEmpty (mkQueuedJob "jA" none none 0) c10Project
        (some emptySettings)).1.status = "failed" ∧
    (startRenderJobFun fsEmpty (mkQueuedJob "jA" none none 0) c10Project
        (some emptySettings)).1.error = some "unsupported_timeline" ∧
    (startRenderJobFun fsEmpty (mkQueuedJob "jA" none none 0) c10Project
        (some emptySettings)).2 = .failedUnsupported := by
  have hkeyA : clipKey c10ClipA = .fin 0 := by
    simp [clipKey, c10ClipA, jOrZero, jOf, jsTruthy]
  have hkeyB : clipKey c10ClipB = .fin 5 := by
    have h5 : jsTruthy (.fin 5) = true := by
      simp only [jsTruthy, decide_eq_true_eq]
      norm_num
    simp [clipKey, c10ClipB, jOrZero, jOf, h5]
  have hcmp : jsCmpLe (clipKey c10ClipA) (clipKey c10ClipB) = true := by
    rw [hkeyA, hkeyB]
    unfold jsCmpLe
    rw [jsub_fin]
    norm_num
  have hsort : sortClips ((c10Project.timeline.bind Timeline.clips).getD []) =
      [c10ClipA, c10ClipB] := by
    show stableInsert c10ClipA (stableInsert c10ClipB []) = [c10ClipA, c10ClipB]
    simp [stableInsert, hcmp]
  have hviol : jltB (jOrZero c10ClipB.timelineStartFrame) (clipPrevEnd c10ClipA) = true := by
    have h5 : jsTruthy (.fin 5) = true := by
      simp only [jsTruthy, decide_eq_true_eq]
      norm_num
    have hl : jOrZero c10ClipB.timelineStartFrame = .fin 5 := by
      simp [c10ClipB, jOrZero, jOf, h5]
    have hr : clipPrevEnd c10ClipA = .fin 10 := by
      simp only [clipPrevEnd, c10ClipA, jOrZero, jOf, Option.getD_some, jsTruthy]
      rw [jsub_fin]
      norm_num [jadd_fin]
    rw [hl, hr]
    show decide ((5:ℚ) < 10) = true
    norm_num
  exact c10_overlap_unsupported fsEmpty (mkQueuedJob "jA" none none 0) c10Project
    emptySettings 0 c10ClipA c10ClipB (Or.inl rfl)
    (by simp +decide [c10Project, truthySourceIds, firstDedup])
    (by rw [hsort]; rfl) (by rw [hsort]; rfl) hviol

/-! ## C7: deriveRenderParams always returns safe positive values -/

/-- A numeric field as a JSON body can carry it: absent, or a finite
number. -/
def wfNum : Option JSNum → Bool
  | none => true
  | some (.fin _) => true
  | some _ => false

def optAll (f : α → Bool) : Option α → Bool
  | none => true
  | some a => f a

def wfClip (c : Clip) : Bool :=
  wfNum c.startFrame && wfNum c.endFrame && wfNum c.timelineStartFrame

def wfSourceObj (s : SourceObj) : Bool := wfNum s.durationFrames

def wfSel (sel : SourceSel) : Bool := wfNum sel.inFrame && wfNum sel.outFrame

/-- Well-formed (JSON-representable) numeric content of a project. -/
def wfProject (p : Project) : Bool :=
  optAll (fun ps => wfNum ps.width && wfNum ps.height && wfNum ps.fps) p.settings &&
  optAll (fun t => wfNum t.fps && optAll (fun cl => cl.all wfClip) t.clips) p.timeline &&
  optAll (fun srcs => srcs.all wfSourceObj) p.sources

/-- Well-formed (JSON-representable) numeric content of the settings. -/
def wfSettings (s : Settings) : Bool :=
  optAll wfSel s.source && wfNum s.width && wfNum s.height &&
  wfNum s.renderResolutionScale && wfNum s.fps

/-- A value that is a finite number or NaN (no infinity). -/
def finOrNan (v : JSNum) : Prop := v = .nan ∨ ∃ q : ℚ, v = .fin q

theorem wfNum_some {v : JSNum} (h : wfNum (some v) = true) : ∃ q : ℚ, v = .fin q := by
  cases v with
  | fin q => exact ⟨q, rfl⟩
  | nan => simp [wfNum] at h
  | inf p => simp [wfNum] at h

theorem finOrNan_jOf {o : Option JSNum} (h : wfNum o = true) : finOrNan (jOf o) := by
  cases o with
  | none => exact Or.inl rfl
  | some v =>
    obtain ⟨q, rfl⟩ := wfNum_some h
    exact Or.inr ⟨q, rfl⟩

theorem finOrNan_jneg {a : JSNum} (ha : finOrNan a) : finOrNan (jneg a) := by
  rcases ha with rfl | ⟨x, rfl⟩
  · exact Or.inl rfl
  · exact Or.inr ⟨-x, rfl⟩

theorem finOrNan_jadd {a b : JSNum} (ha : finOrNan a) (hb : finOrNan b) :
    finOrNan (jadd a b) := by
  rcases ha with rfl | ⟨x, rfl⟩ <;> rcases hb with rfl | ⟨y, rfl⟩
  · exact Or.inl rfl
  · exact Or.inl rfl
  · exact Or.inl rfl
  · exact Or.inr ⟨x + y, rfl⟩

theorem finOrNan_jsub {a b : JSNum} (ha : finOrNan a) (hb : finOrNan b) :
    finOrNan (jsub a b) :=
  finOrNan_jadd ha (finOrNan_jneg hb)

theorem finOrNan_jmin {a b : JSNum} (ha : finOrNan a) (hb : finOrNan b) :
    finOrNan (jmin a b) := by
  rcases ha with rfl | ⟨x, rfl⟩ <;> rcases hb with rfl | ⟨y, rfl⟩
  · exact Or.inl rfl
  · exact Or.inl rfl
  · exact Or.inl rfl
  · rw [jmin_fin]
    exact Or.inr ⟨min x y, rfl⟩

theorem finOrNan_jmax {a b : JSNum} (ha : finOrNan a) (hb : finOrNan b) :
    finOrNan (jmax a b) := by
  rcases ha with rfl | ⟨x, rfl⟩ <;> rcases hb with rfl | ⟨y, rfl⟩
  · exact Or.inl rfl
  · exact Or.inl rfl
  · exact Or.inl rfl
  · rw [jmax_fin]
    exact Or.inr ⟨max x y, rfl⟩

theorem jsMathMin_finOrNan (l : List JSNum) (hne : l ≠ [])
    (h : ∀ x ∈ l, finOrNan x) : finOrNan (jsMathMin l) := by
  induction l with
  | nil => exact absurd rfl hne
  | cons x xs ih =>
    have hx := h x (List.mem_cons_self x xs)
    cases xs with
    | nil =>
      rcases hx with rfl | ⟨q, rfl⟩
      · exact Or.inl rfl
      · exact Or.inr ⟨q, rfl⟩
    | cons y ys =>
      have hxs : finOrNan (jsMathMin (y :: ys)) :=
        ih (by simp) (fun z hz => h z (List.mem_cons_of_mem x hz))
      exact finOrNan_jmin hx hxs

theorem jsMathMax_finOrNan (l : List JSNum) (hne : l ≠ [])
    (h : ∀ x ∈ l, finOrNan x) : finOrNan (jsMathMax l) := by
  induction l with
  | nil => exact absurd rfl hne
  | cons x xs ih =>
    have hx := h x (List.mem_cons_self x xs)
    cases xs with
    | nil =>
      rcases hx with rfl | ⟨q, rfl⟩
      · exact Or.inl rfl
      · exact Or.inr ⟨q, rfl⟩
    | cons y ys =>
      have hxs : finOrNan (jsMathMax (y :: ys)) :=
        ih (by simp) (fun z hz => h z (List.mem_cons_of_mem x hz))
      exact finOrNan_jmax hx hxs

theorem ensureMinFrames_ge_one {v : JSNum} (hv : finOrNan v) :
    ∃ n : ℚ, ensureMinFrames v = .fin n ∧ 1 ≤ n := by
  rcases hv with rfl | ⟨q, rfl⟩
  · exact ⟨1, ensureMinFrames_nan, le_refl 1⟩
  · exact ⟨max 1 q, ensureMinFrames_fin q, le_max_left 1 q⟩

theorem jsProjectFps_fin (p : Project) (hp : wfProject p = true) :
    ∃ q : ℚ, jsProjectFps p = .fin q := by
  obtain ⟨hps, htl, _⟩ : _ ∧ _ ∧ _ := by
    simpa [wfProject, Bool.and_assoc] using hp
  unfold jsProjectFps
  cases htls : p.timeline with
  | some t =>
    rw [htls] at htl
    simp only [optAll, Bool.and_eq_true] at htl
    cases htf : t.fps with
    | some v =>
      rw [htf] at htl
      obtain ⟨q, rfl⟩ := wfNum_some htl.1
      exact ⟨q, by simp [htls, htf, Option.orElse]⟩
    | none =>
      cases hpss : p.settings with
      | some ps =>
        rw [hpss] at hps
        simp only [optAll, Bool.and_eq_true, Bool.and_assoc] at hps
        cases hpf : ps.fps with
        | some v =>
          rw [hpf] at hps
          obtain ⟨q, rfl⟩ := wfNum_some hps.2.2
          exact ⟨q, by simp [htls, htf, hpss, hpf, Option.orElse]⟩
        | none => exact ⟨24, by simp [htls, htf, hpss, hpf, Option.orElse]⟩
      | none => exact ⟨24, by simp [htls, htf, hpss, Option.orElse]⟩
  | none =>
    cases hpss : p.settings with
    | some ps =>
      rw [hpss] at hps
      simp only [optAll, Bool.and_eq_true, Bool.and_assoc] at hps
      cases hpf : ps.fps with
      | some v =>
        rw [hpf] at hps
        obtain ⟨q, rfl⟩ := wfNum_some hps.2.2
        exact ⟨q, by simp [htls, hpss, hpf, Option.orElse]⟩
      | none => exact ⟨24, by simp [htls, hpss, hpf, Option.orElse]⟩
    | none => exact ⟨24, by simp [htls, hpss, Option.orElse]⟩

theorem wfProject_clips (p : Project) (hp : wfProject p = true) :
    ∀ c ∈ (p.timeline.bind Timeline.clips).getD [], wfClip c = true := by
  obtain ⟨_, htl, _⟩ : _ ∧ _ ∧ _ := by
    simpa [wfProject, Bool.and_assoc] using hp
  cases htls : p.timeline with
  | none => simp
  | some t =>
    rw [htls] at htl
    simp only [optAll, Bool.and_eq_true] at htl
    cases htc : t.clips with
    | none => simp [htc]
    | some cl =>
      rw [htc] at htl
      simpa [htc, List.all_eq_true] using htl.2

theorem wfProject_sources (p : Project) (hp : wfProject p = true) :
    ∀ s ∈ p.sources.getD [], wfSourceObj s = true := by
  obtain ⟨_, _, hsrc⟩ : _ ∧ _ ∧ _ := by
    simpa [wfProject, Bool.and_assoc] using hp
  cases hss : p.sources with
  | none => simp
  | some srcs =>
    rw [hss] at hsrc
    simpa [optAll, List.all_eq_true] using hsrc

theorem computeDurationFramesCore_pos (p : Project) (sel : SourceSel)
    (hp : wfProject p = true) (hsel : wfSel sel = true) (f : JSNum)
    (hf : computeDurationFramesCore p sel = some f) :
    ∃ n : ℚ, f = .fin n ∧ 1 ≤ n := by
  have hclips := wfProject_clips p hp
  have hsrcs := wfProject_sources p hp
  simp only [wfSel, Bool.and_eq_true] at hsel
  unfold computeDurationFramesCore at hf
  split at hf
  · -- timeline kind
    split at hf
    · -- explicit in/out range
      rename_i i o hin hout
      obtain ⟨qi, rfl⟩ := wfNum_some (hin ▸ hsel.1)
      obtain ⟨qo, rfl⟩ := wfNum_some (hout ▸ hsel.2)
      rw [Option.some.injEq] at hf
      subst hf
      rw [jsub_fin, jadd_fin]
      exact ensureMinFrames_ge_one (Or.inr ⟨qo - qi + 1, rfl⟩)
    · -- clips branch or fallback
      dsimp only at hf
      split at hf
      · -- clips nonempty
        rename_i hlen
        rw [Option.some.injEq] at hf
        subst hf
        have hne : ((p.timeline.bind Timeline.clips).getD []) ≠ [] := by
          intro hz
          rw [hz] at hlen
          simp at hlen
        apply ensureMinFrames_ge_one
        apply finOrNan_jadd _ (Or.inr ⟨1, rfl⟩)
        apply finOrNan_jsub
        · apply jsMathMax_finOrNan _ (by simpa using hne)
          intro x hx
          obtain ⟨c, hc, rfl⟩ := List.mem_map.mp hx
          have hwf := hclips c hc
          simp only [wfClip, Bool.and_eq_true] at hwf
          exact finOrNan_jadd (finOrNan_jOf hwf.2)
            (finOrNan_jsub (finOrNan_jOf hwf.1.2) (finOrNan_jOf hwf.1.1))
        · apply jsMathMin_finOrNan _ (by simpa using hne)
          intro x hx
          obtain ⟨c, hc, rfl⟩ := List.mem_map.mp hx
          have hwf := hclips c hc
          simp only [wfClip, Bool.and_eq_true] at hwf
          exact finOrNan_jOf hwf.2
      · -- no clips: one second at project fps
        rw [Option.some.injEq] at hf
        subst hf
        obtain ⟨q, hq⟩ := jsProjectFps_fin p hp
        rw [hq]
        exact ensureMinFrames_ge_one (Or.inr ⟨q, rfl⟩)
  · -- clip kind
    split at hf
    · split at hf
      · rename_i clip hfind
        rw [Option.some.injEq] at hf
        subst hf
        have hmem := List.mem_of_find?_eq_some hfind
        have hwf := hclips clip hmem
        simp only [wfClip, Bool.and_eq_true] at hwf
        exact ensureMinFrames_ge_one (finOrNan_jadd
          (finOrNan_jsub (finOrNan_jOf hwf.1.2) (finOrNan_jOf hwf.1.1))
          (Or.inr ⟨1, rfl⟩))
      · simp at hf
    · split at hf
      · -- source kind
        split at hf
        · rename_i src hfind
          split at hf
          · rw [Option.some.injEq] at hf
            subst hf
            have hmem := List.mem_of_find?_eq_some hfind
            have hwf := hsrcs src hmem
            simp only [wfSourceObj] at hwf
            exact ensureMinFrames_ge_one (finOrNan_jOf hwf)
          · simp at hf
        · simp at hf
      · simp at hf

theorem computeDurationFrames_pos (p : Project) (s : Settings)
    (hp : wfProject p = true) (hs : wfSettings s = true) :
    ∃ n : ℚ, computeDurationFrames p s = .fin n ∧ 1 ≤ n := by
  have hsel : wfSel (s.source.getD defaultSel) = true := by
    simp only [wfSettings, Bool.and_eq_true] at hs
    cases hso : s.source with
    | none => rfl
    | some sel =>
      have := hs.1.1.1.1
      rw [hso] at this
      simpa [optAll] using this
  unfold computeDurationFrames
  dsimp only
  cases hcore : computeDurationFramesCore p (s.source.getD defaultSel) with
  | none =>
    simp only [hcore]
    obtain ⟨q, hq⟩ := jsProjectFps_fin p hp
    rw [hq]
    exact ensureMinFrames_ge_one (Or.inr ⟨q, rfl⟩)
  | some f =>
    obtain ⟨n, rfl, hn⟩ := computeDurationFramesCore_pos p _ hp hsel f hcore
    simp only [hcore]
    have hne : n ≠ 0 := by linarith
    have ht : jsTruthy (.fin n) = true := by simp [jsTruthy, hne]
    rw [if_pos ht]
    exact ⟨n, rfl, hn⟩

theorem optNum_getD_fin (o : Option JSNum) (d : ℚ) (h : wfNum o = true) :
    ∃ q : ℚ, o.getD (.fin d) = .fin q := by
  cases o with
  | none => exact ⟨d, rfl⟩
  | some v =>
    obtain ⟨q, rfl⟩ := wfNum_some h
    exact ⟨q, rfl⟩

theorem wfProject_bind_width (p : Project) (hp : wfProject p = true) :
    wfNum (p.settings.bind ProjSettings.width) = true := by
  obtain ⟨hps, _, _⟩ : _ ∧ _ ∧ _ := by
    simpa [wfProject, Bool.and_assoc] using hp
  cases hpss : p.settings with
  | none => rfl
  | some ps =>
    rw [hpss] at hps
    simp only [optAll, Bool.and_eq_true, Bool.and_assoc] at hps
    simpa using hps.1

theorem wfProject_bind_height (p : Project) (hp : wfProject p = true) :
    wfNum (p.settings.bind ProjSettings.height) = true := by
  obtain ⟨hps, _, _⟩ : _ ∧ _ ∧ _ := by
    simpa [wfProject, Bool.and_assoc] using hp
  cases hpss : p.settings with
  | none => rfl
  | some ps =>
    rw [hpss] at hps
    simp only [optAll, Bool.and_eq_true, Bool.and_assoc] at hps
    simpa using hps.2.1

theorem geometry_shape (v scl : JSNum) (hv : ∃ a : ℚ, v = .fin a)
    (hscl : ∃ b : ℚ, scl = .fin b) :
    ∃ w : ℚ, jmax (.fin 16) (jround (jmul v scl)) = .fin w ∧ 16 ≤ w := by
  obtain ⟨a, rfl⟩ := hv
  obtain ⟨b, rfl⟩ := hscl
  rw [jmul_fin, jround_fin, jmax_fin]
  exact ⟨max 16 ((⌊a * b + 1 / 2⌋ : ℤ) : ℚ), rfl, le_max_left _ _⟩

theorem guarded_fps_shape (v : JSNum) :
    ∃ f : ℚ, (if !jsIsFinite v || jleB v (.fin 0) then (.fin 24 : JSNum) else v) = .fin f
      ∧ 0 < f := by
  split
  · exact ⟨24, rfl, by norm_num⟩
  · rename_i hg
    rw [Bool.or_eq_true, not_or] at hg
    obtain ⟨hfin, hle⟩ := hg
    cases v with
    | nan => simp [jsIsFinite] at hfin
    | inf b => simp [jsIsFinite] at hfin
    | fin q =>
      refine ⟨q, rfl, ?_⟩
      rw [Bool.not_eq_true] at hle
      simp only [jleB, decide_eq_false_iff_not, not_le] at hle
      exact hle

/-- C7: on well-formed (JSON-representable) inputs, `deriveRenderParams`
always returns finite values with width and height at least 16, a
strictly positive fps, and durationSeconds at least 0.1; and the fps
component falls back to 24 exactly when the selected frame rate is
non-finite or non-positive. -/
theorem c7_derive_params_safe (project : Project) (settings : Settings)
    (hp : wfProject project = true) (hs : wfSettings settings = true) :
    (∃ w : ℚ, (deriveRenderParams project settings).width = .fin w ∧ 16 ≤ w) ∧
    (∃ h : ℚ, (deriveRenderParams project settings).height = .fin h ∧ 16 ≤ h) ∧
    (∃ f : ℚ, (deriveRenderParams project settings).fps = .fin f ∧ 0 < f) ∧
    (∃ d : ℚ, (deriveRenderParams project settings).durationSeconds = .fin d ∧ 1 / 10 ≤ d) ∧
    ((!jsIsFinite (selectedFps project settings)
        || jleB (selectedFps project settings) (.fin 0)) = true →
      (deriveRenderParams project settings).fps = .fin 24) := by
  obtain ⟨hsrc, hsw, hsh, hssc, hsf⟩ :
      optAll wfSel settings.source = true ∧ wfNum settings.width = true ∧
      wfNum settings.height = true ∧ wfNum settings.renderResolutionScale = true ∧
      wfNum settings.fps = true := by
    simpa [wfSettings, Bool.and_assoc] using hs
  have hscale : ∃ b : ℚ, settings.renderResolutionScale.getD (.fin 1) = .fin b :=
    optNum_getD_fin _ 1 hssc
  refine ⟨?_, ?_, ?_, ?_, ?_⟩
  · -- width
    unfold deriveRenderParams
    dsimp only
    apply geometry_shape _ _ ?_ hscale
    split
    · rename_i hcnd
      simp only [Bool.and_eq_true] at hcnd
      rcases finOrNan_jOf hsw with hnan | hfin
      · rw [hnan] at hcnd
        simp [jsTruthy] at hcnd
      · exact hfin
    · exact optNum_getD_fin _ 640 (wfProject_bind_width project hp)
  · -- height
    unfold deriveRenderParams
    dsimp only
    apply geometry_shape _ _ ?_ hscale
    split
    · rename_i hcnd
      simp only [Bool.and_eq_true] at hcnd
      rcases finOrNan_jOf hsh with hnan | hfin
      · rw [hnan] at hcnd
        simp [jsTruthy] at hcnd
      · exact hfin
    · exact optNum_getD_fin _ 360 (wfProject_bind_height project hp)
  · -- fps
    unfold deriveRenderParams
    dsimp only
    obtain ⟨f, hf, hpos⟩ := guarded_fps_shape (selectedFps project settings)
    exact ⟨f, hf, hpos⟩
  · -- durationSeconds
    unfold deriveRenderParams
    dsimp only
    obtain ⟨f, hf, hpos⟩ := guarded_fps_shape (selectedFps project settings)
    obtain ⟨n, hn, hn1⟩ := computeDurationFrames_pos project settings hp hs
    rw [hf, hn, jdiv_fin n f (ne_of_gt hpos), jmax_fin]
    exact ⟨max (1 / 10) (n / f), rfl, le_max_left _ _⟩
  · -- fallback to 24
    intro hg
    unfold deriveRenderParams
    dsimp only
    rw [if_pos hg]

/-- Witness for C7 on the empty project and settings (defaults
640x360 at 24fps for one second). -/
theorem c7_derive_params_safe_witness :
    (∃ w : ℚ, (deriveRenderParams emptyProject emptySettings).width = .fin w ∧ 16 ≤ w) ∧
    (∃ h : ℚ, (deriveRenderParams emptyProject emptySettings).height = .fin h ∧ 16 ≤ h) ∧
    (∃ f : ℚ, (deriveRenderParams emptyProject emptySettings).fps = .fin f ∧ 0 < f) ∧
    (∃ d : ℚ, (deriveRenderParams emptyProject emptySettings).durationSeconds = .fin d ∧
      1 / 10 ≤ d) ∧
    ((!jsIsFinite (selectedFps emptyProject emptySettings)
        || jleB (selectedFps emptyProject emptySettings) (.fin 0)) = true →
      (deriveRenderParams emptyProject emptySettings).fps = .fin 24) :=
  c7_derive_params_safe emptyProject emptySettings (by rfl) (by rfl)

/-! ## C1: downloadPath versus job status -/

theorem TMP_DIR_length_pos : 0 < TMP_DIR.length := by decide

theorem outputPath_ne_empty (a : String) : TMP_DIR ++ a ≠ "" := by
  intro h
  have := congrArg String.length h
  rw [String.length_append] at this
  have := TMP_DIR_length_pos
  simp at *
  omega

/-- Any `startRenderJob` run either fails the job, or leaves it rendering
with a non-empty `downloadPath`. -/
theorem startRenderJobFun_cases (fs : FSModel) (job : Job) (project : Project)
    (settings : Option Settings) :
    (startRenderJobFun fs job project settings).1.status = "failed" ∨
    ((startRenderJobFun fs job project settings).1.status = "rendering" ∧
      ∃ p, (startRenderJobFun fs job project settings).1.downloadPath = some p ∧ p ≠ "") := by
  unfold startRenderJobFun
  dsimp only
  split
  · exact Or.inl rfl
  · split
    · split
      · exact Or.inl rfl
      · exact Or.inr ⟨rfl, _, rfl, outputPath_ne_empty _⟩
    · exact Or.inl rfl

/-- C1 amended: along every reachable job lifecycle, `downloadPath` is
absent while `queued` (hence no `downloadUrl`), present and non-empty
while `rendering` and when `complete` (hence a `downloadUrl` is present
for every complete job — but also already while rendering, and it is not
cleared by an encoder failure, so "present iff complete" does not hold). -/
theorem c1_amended_download_path_lifecycle (j : Job) (hr : Reachable j) :
    (j.status = "queued" → j.downloadPath = none ∧ statusDownloadUrl j = none) ∧
    (j.status = "rendering" → ∃ p, j.downloadPath = some p ∧ p ≠ "") ∧
    (j.status = "complete" → ∃ p, j.downloadPath = some p ∧ p ≠ "" ∧
      (statusDownloadUrl j).isSome = true) := by
  induction hr with
  | created id settings cv nowMs =>
    refine ⟨fun _ => ⟨rfl, rfl⟩, fun h => ?_, fun h => ?_⟩
    · exact absurd h (by simp [mkQueuedJob])
    · exact absurd h (by simp [mkQueuedJob])
  | rejectedOverCapacity id settings cv nowMs =>
    refine ⟨fun h => ?_, fun h => ?_, fun h => ?_⟩
    · exact absurd h (by simp [mkQueuedJob])
    · exact absurd h (by simp [mkQueuedJob])
    · exact absurd h (by simp [mkQueuedJob])
  | renderStarted j fs project settings hr hq ih =>
    rcases startRenderJobFun_cases fs j project settings with hfail | ⟨hrend, p, hp, hpne⟩
    · refine ⟨fun h => ?_, fun h => ?_, fun h => ?_⟩
      · rw [hfail] at h
        exact absurd h (by decide)
      · rw [hfail] at h
        exact absurd h (by decide)
      · rw [hfail] at h
        exact absurd h (by decide)
    · refine ⟨fun h => ?_, fun h => ?_, fun h => ?_⟩
      · rw [hrend] at h
        exact absurd h (by decide)
      · exact ⟨p, hp, hpne⟩
      · rw [hrend] at h
        exact absurd h (by decide)
  | progressed j percent hr hq ih =>
    obtain ⟨p, hp, hpne⟩ := ih.2.1 hq
    refine ⟨fun h => ?_, fun _ => ⟨p, hp, hpne⟩, fun h => ?_⟩
    · rw [show (applyProgress j percent).status = j.status from rfl, hq] at h
      exact absurd h (by decide)
    · rw [show (applyProgress j percent).status = j.status from rfl, hq] at h
      exact absurd h (by decide)
  | ffmpegErrored j code msg hr hq ih =>
    refine ⟨fun h => ?_, fun h => ?_, fun h => ?_⟩
    · exact absurd h (by simp [applyFfmpegError])
    · exact absurd h (by simp [applyFfmpegError])
    · exact absurd h (by simp [applyFfmpegError])
  | ffmpegEnded j hr hq ih =>
    obtain ⟨p, hp, hpne⟩ := ih.2.1 hq
    refine ⟨fun h => ?_, fun h => ?_, fun _ => ⟨p, hp, hpne, ?_⟩⟩
    · exact absurd h (by simp [applyFfmpegEnd])
    · exact absurd h (by simp [applyFfmpegEnd])
    · show (statusDownloadUrl (applyFfmpegEnd j)).isSome = true
      simp only [statusDownloadUrl, applyFfmpegEnd]
      rw [show ({ j with status := "complete", progress := .fin 100 } : Job).downloadPath
        = j.downloadPath from rfl, hp]
      simp [hpne]

/-- Witness for C1 amended at a freshly created job. -/
theorem c1_amended_download_path_lifecycle_witness :
    ((mkQueuedJob "a" none none 0).status = "queued" →
      (mkQueuedJob "a" none none 0).downloadPath = none ∧
      statusDownloadUrl (mkQueuedJob "a" none none 0) = none) ∧
    ((mkQueuedJob "a" none none 0).status = "rendering" →
      ∃ p, (mkQueuedJob "a" none none 0).downloadPath = some p ∧ p ≠ "") ∧
    ((mkQueuedJob "a" none none 0).status = "complete" →
      ∃ p, (mkQueuedJob "a" none none 0).downloadPath = some p ∧ p ≠ "" ∧
      (statusDownloadUrl (mkQueuedJob "a" none none 0)).isSome = true) :=
  c1_amended_download_path_lifecycle (mkQueuedJob "a" none none 0)
    (Reachable.created "a" none none 0)

/-- A source-kind export whose media file exists: the render pipeline
reaches the encoder. -/
def c1Settings : Settings :=
  { emptySettings with
      source := some { kind := "source", sourceId := some "s1", clipId := none,
                       inFrame := none, outFrame := none },
      container := some "mp4" }

def c1Src : SourceObj :=
  { id := some "s1", hash := some "h", originalName := none,
    durationFrames := some (.fin 24) }

def c1Project : Project :=
  { settings := none, timeline := none, sources := some [c1Src] }

def c1Fs : FSModel :=
  { existsSync := fun p => p = "/tmp/dmosh-media/h.mp4",
    statSize := fun p => if p = "/tmp/dmosh-media/h.mp4" then some 1 else none }

/-- The job as the encoder is invoked. -/
def c1RenderingJob : Job :=
  (startRenderJobFun c1Fs (mkQueuedJob "j1" (some c1Settings) none 0) c1Project
    (some c1Settings)).1

theorem c1_derive_width : (deriveRenderParams c1Project c1Settings).width = .fin 640 := by
  norm_num [deriveRenderParams, c1Project, c1Settings, emptySettings, jOf, jsTruthy,
    jmul_fin, jround_fin, jmax_fin, floor_add_half_int]

theorem c1_derive_height : (deriveRenderParams c1Project c1Settings).height = .fin 360 := by
  norm_num [deriveRenderParams, c1Project, c1Settings, emptySettings, jOf, jsTruthy,
    jmul_fin, jround_fin, jmax_fin, floor_add_half_int]

theorem c1_derive_duration :
    (deriveRenderParams c1Project c1Settings).durationSeconds = .fin 1 := by
  have hframes : computeDurationFrames c1Project c1Settings = .fin 24 := by
    have h24 : jsTruthy (.fin 24) = true := by
      simp only [jsTruthy, decide_eq_true_eq]
      norm_num
    have hmax : max (1 : ℚ) 24 = 24 := by norm_num
    simp +decide [computeDurationFrames, computeDurationFramesCore, c1Project, c1Settings,
      emptySettings, c1Src, jOf, strTruthy, h24, ensureMinFrames_fin, hmax]
  have hdiv : jdiv (.fin 24) (.fin 24) = .fin 1 := by
    rw [jdiv_fin 24 24 (by norm_num)]
    norm_num
  have hsel : selectedFps c1Project c1Settings = .fin 24 := by
    simp +decide [selectedFps, jsProjectFps, c1Project, c1Settings, emptySettings, jOf,
      jsTruthy]
  have hguard : (!jsIsFinite (.fin 24 : JSNum) || jleB (.fin 24) (.fin 0)) = false := by
    simp only [jsIsFinite, Bool.not_true, jleB, Bool.or_eq_false_iff]
    refine ⟨trivial, ?_⟩
    simp only [decide_eq_false_iff_not, not_le]
    norm_num
  unfold deriveRenderParams
  dsimp only
  rw [hframes, hsel, hguard]
  simp only [Bool.false_eq_true, if_false]
  rw [hdiv, jmax_fin]
  norm_num

theorem c1_pipeline :
    c1RenderingJob.status = "rendering" ∧
    c1RenderingJob.downloadPath = some ("/tmp/dmosh-export-service" ++ "/" ++ "j1" ++ "." ++ "mp4") := by
  have hsimp1 : isSimpleTimeline c1Project c1Settings = true := by decide
  have hres : resolvePrimarySource c1Project c1Settings = some c1Src := by decide
  have hcont : strOr c1Settings.container "mp4" = "mp4" := by decide
  have hmedia : resolveMediaPathForSource c1Fs c1Project (some c1Src) (some "mp4") =
      some "/tmp/dmosh-media/h.mp4" := by decide
  have hltw : jltB (.fin EXTREME_MAX_DIMENSION)
      (deriveRenderParams c1Project c1Settings).width = false := by
    rw [c1_derive_width]
    show decide (EXTREME_MAX_DIMENSION < 640) = false
    norm_num [EXTREME_MAX_DIMENSION]
  have hlth : jltB (.fin EXTREME_MAX_DIMENSION)
      (deriveRenderParams c1Project c1Settings).height = false := by
    rw [c1_derive_height]
    show decide (EXTREME_MAX_DIMENSION < 360) = false
    norm_num [EXTREME_MAX_DIMENSION]
  have hltd : jltB (.fin EXTREME_MAX_DURATION_SECONDS)
      (deriveRenderParams c1Project c1Settings).durationSeconds = false := by
    rw [c1_derive_duration]
    show decide (EXTREME_MAX_DURATION_SECONDS < 1) = false
    norm_num [EXTREME_MAX_DURATION_SECONDS]
  unfold c1RenderingJob startRenderJobFun
  simp only [Option.getD_some, hsimp1, Bool.not_true, Bool.false_eq_true, if_false,
    hcont, hres, hmedia, hltw, hlth, hltd, Bool.or_self, Bool.or_false]
  exact ⟨trivial, rfl⟩

/-- C1 counterexample: a reachable job that is `rendering` — not
`complete` — yet has `downloadPath` set and a `downloadUrl` in its status
response, refuting "downloadPath is set iff status is complete". -/
theorem c1_counterexample :
    Reachable c1RenderingJob ∧
    c1RenderingJob.status = "rendering" ∧
    c1RenderingJob.status ≠ "complete" ∧
    c1RenderingJob.downloadPath.isSome = true ∧
    (statusDownloadUrl c1RenderingJob).isSome = true := by
  obtain ⟨hstat, hpath⟩ := c1_pipeline
  refine ⟨?_, hstat, by rw [hstat]; decide, by rw [hpath]; rfl, ?_⟩
  · exact Reachable.renderStarted (mkQueuedJob "j1" (some c1Settings) none 0) c1Fs
      c1Project (some c1Settings) (Reachable.created "j1" (some c1Settings) none 0) rfl
  · rw [statusDownloadUrl, hpath]
    simp only [Option.isSome_some]
    decide
